import Mathlib

/-!
# Verification of the Language & Snippet Utility Module

Shallow embedding of `src/domain/entities/CodeEditor.ts` from
`@umituz/react-native-code-editor`, together with theorems settling the
spec's claims about it.

JavaScript strings are modelled as Lean `String` (a list of characters);
the JS string operations used by the module (`toLowerCase`, `split`,
`pop`, `trim`, `substring`, `lastIndexOf`, `length`, truthiness, `||`)
are embedded below with their ECMAScript semantics.
-/

/-- JS `WhiteSpace`/`LineTerminator` characters recognised by `String.prototype.trim`
(the ones expressible in this code base: tab, LF, VT, FF, CR, space, NBSP,
LS, PS, ZWNBSP). -/
def isJsWhitespace (c : Char) : Bool :=
  c = ' ' || c = '\t' || c = '\n' || c = '\x0b' || c = '\x0c' || c = '\r' ||
  c = ' ' || c = ' ' || c = ' ' || c = '﻿'

/-- JS `String.prototype.trim`: drop leading and trailing whitespace. -/
def jsTrim (s : String) : String :=
  String.mk (((s.data.dropWhile isJsWhitespace).reverse.dropWhile isJsWhitespace).reverse)

/-- ASCII lower-casing of one character, as JS `toLowerCase` acts on the
characters appearing in this module's data. -/
def charToLower (c : Char) : Char :=
  if 'A' ≤ c ∧ c ≤ 'Z' then Char.ofNat (c.toNat + 32) else c

/-- ASCII upper-casing of one character (JS `toUpperCase` on ASCII). -/
def charToUpper (c : Char) : Char :=
  if 'a' ≤ c ∧ c ≤ 'z' then Char.ofNat (c.toNat - 32) else c

/-- JS `String.prototype.toLowerCase` (on the ASCII data this module uses). -/
def jsToLower (s : String) : String := String.mk (s.data.map charToLower)

/-- JS `String.prototype.toUpperCase` (on the ASCII data this module uses). -/
def jsToUpper (s : String) : String := String.mk (s.data.map charToUpper)

/-- Worker for `jsSplit`: `acc` holds the current segment, reversed. -/
def splitAux (c : Char) : List Char → List Char → List String
  | [], acc => [String.mk acc.reverse]
  | x :: xs, acc =>
    if x = c then String.mk acc.reverse :: splitAux c xs []
    else splitAux c xs (x :: acc)

/-- JS `String.prototype.split` with a single-character separator:
`"".split(c)` is `[""]`, and in general the result has one more element
than the number of separator occurrences. -/
def jsSplit (c : Char) (s : String) : List String := splitAux c s.data []

/-- JS `array.pop() || ''` on the (always non-empty) result of a split:
the last element, with a falsy `""` mapped to `''` (a no-op). -/
def lastOrEmpty (l : List String) : String := (l.getLast?).getD ""

/-- JS `s || d` for strings: `d` when `s` is falsy (empty), else `s`;
`Option` `none` models JS `undefined`. -/
def jsOrOpt (o : Option String) : String → String
  | d => match o with
    | some s => if s = "" then d else s
    | none => d

/-- JS `array.join('\n')`. -/
def joinNL : List String → String
  | [] => ""
  | [x] => x
  | x :: y :: xs => x ++ "\n" ++ joinNL (y :: xs)

/-- JS `s.lastIndexOf(c)`: index of the last occurrence, `-1` if absent. -/
def lastIndexOfAux (c : Char) : List Char → Int
  | [] => -1
  | x :: xs =>
    let r := lastIndexOfAux c xs
    if r ≥ 0 then r + 1 else if x = c then 0 else -1

/-- JS `s.lastIndexOf(c)` on a string. -/
def lastIndexOf (s : String) (c : Char) : Int := lastIndexOfAux c s.data

/-- First-match association-list lookup, modelling JS object-literal
property access `obj[key]` (`none` = `undefined`). -/
def lookupStr {α : Type} (k : String) : List (String × α) → Option α
  | [] => none
  | (k2, v) :: rest => if k = k2 then some v else lookupStr k rest

/-! ## Constants of `CodeEditor.ts` -/

/-- `CODE_EDITOR_CONSTANTS.MAX_CODE_LENGTH`. -/
def MAX_CODE_LENGTH : Nat := 50000

/-- `CODE_EDITOR_CONSTANTS.PREVIEW_LENGTH`. -/
def PREVIEW_LENGTH : Nat := 150

/-- One row of the `LANGUAGE_INFO` table. -/
structure LangInfo where
  name : String
  extension : String
  icon : String
deriving DecidableEq

/-- The `LANGUAGE_INFO` table: display name, primary file extension and
icon key for each of the 25 language identities, in source order. -/
def LANGUAGE_INFO : List (String × LangInfo) :=
  [("typescript", ⟨"TypeScript", ".ts", "FileCode"⟩),
   ("javascript", ⟨"JavaScript", ".js", "FileCode"⟩),
   ("python", ⟨"Python", ".py", "FileCode"⟩),
   ("java", ⟨"Java", ".java", "FileCode"⟩),
   ("csharp", ⟨"C#", ".cs", "FileCode"⟩),
   ("cpp", ⟨"C++", ".cpp", "FileCode"⟩),
   ("c", ⟨"C", ".c", "FileCode"⟩),
   ("swift", ⟨"Swift", ".swift", "FileCode"⟩),
   ("kotlin", ⟨"Kotlin", ".kt", "FileCode"⟩),
   ("go", ⟨"Go", ".go", "FileCode"⟩),
   ("rust", ⟨"Rust", ".rs", "FileCode"⟩),
   ("php", ⟨"PHP", ".php", "FileCode"⟩),
   ("ruby", ⟨"Ruby", ".rb", "FileCode"⟩),
   ("html", ⟨"HTML", ".html", "FileCode"⟩),
   ("css", ⟨"CSS", ".css", "FileCode"⟩),
   ("scss", ⟨"SCSS", ".scss", "FileCode"⟩),
   ("json", ⟨"JSON", ".json", "Braces"⟩),
   ("xml", ⟨"XML", ".xml", "FileCode"⟩),
   ("yaml", ⟨"YAML", ".yaml", "FileCode"⟩),
   ("markdown", ⟨"Markdown", ".md", "FileText"⟩),
   ("sql", ⟨"SQL", ".sql", "Database"⟩),
   ("bash", ⟨"Bash", ".sh", "Terminal"⟩),
   ("shell", ⟨"Shell", ".sh", "Terminal"⟩),
   ("dockerfile", ⟨"Dockerfile", "Dockerfile", "Box"⟩),
   ("plaintext", ⟨"Plain Text", ".txt", "FileText"⟩)]

/-- The closed set of 25 language identities, in the order of the
`ProgrammingLanguage` union type. -/
def LANGUAGES : List String :=
  ["typescript", "javascript", "python", "java", "csharp", "cpp", "c",
   "swift", "kotlin", "go", "rust", "php", "ruby", "html", "css", "scss",
   "json", "xml", "yaml", "markdown", "sql", "bash", "shell", "dockerfile",
   "plaintext"]

/-- The `languageMap` extension-token table local to `detectLanguage`,
in source order. -/
def languageMap : List (String × String) :=
  [("ts", "typescript"), ("tsx", "typescript"),
   ("js", "javascript"), ("jsx", "javascript"),
   ("py", "python"), ("java", "java"), ("cs", "csharp"),
   ("cpp", "cpp"), ("cc", "cpp"), ("c", "c"), ("h", "c"),
   ("swift", "swift"), ("kt", "kotlin"), ("go", "go"), ("rs", "rust"),
   ("php", "php"), ("rb", "ruby"),
   ("html", "html"), ("htm", "html"),
   ("css", "css"), ("scss", "scss"), ("sass", "scss"),
   ("json", "json"), ("xml", "xml"),
   ("yaml", "yaml"), ("yml", "yaml"),
   ("md", "markdown"), ("sql", "sql"),
   ("sh", "bash"), ("bash", "bash"),
   ("dockerfile", "dockerfile"), ("txt", "plaintext")]

/-! ## `CodeEditorUtils` -/

/-- `CodeEditorUtils.detectLanguage`:
`const ext = filename.toLowerCase().split('.').pop() || '';
 return languageMap[ext] || 'plaintext';` -/
def detectLanguage (filename : String) : String :=
  let ext := lastOrEmpty (jsSplit '.' (jsToLower filename))
  jsOrOpt (lookupStr ext languageMap) "plaintext"

/-- The 53-bit significand of the IEEE-754 double nearest `0.7`:
`fl(0.7) = 6305039478318694 / 2^53` (the literal `0.7` in the source;
`0.7 * 2^53 = 6305039478318694.4` rounds down). -/
def FLOAT_07_NUM : Nat := 6305039478318694

/-- Worker for `bitLen`: the fuel argument only bounds the recursion
depth (`⌊log2 n⌋ + 1 ≤ fuel` suffices, so `fuel = n` always does). -/
def bitLenAux : Nat → Nat → Nat
  | 0, _ => 0
  | fuel + 1, n => if n = 0 then 0 else bitLenAux fuel (n / 2) + 1

/-- Number of binary digits of `n`: the `k` with `2^(k-1) ≤ n < 2^k`
for `n ≥ 1`, and 0 for `n = 0`. -/
def bitLen (n : Nat) : Nat := bitLenAux n n

/-- The IEEE-754 double product `maxLength * 0.7` from the source,
scaled by `2^53`: the exact product `FLOAT_07_NUM * m / 2^53` of the
double nearest `0.7` with the (exactly representable) integer `m` is
rounded to 53 significant bits, round-half-to-even, and returned times
`2^53`. Faithful for `m < 2^53`, where every integer is an exact double;
normal range and no overflow for the values at hand. -/
def mul07Scaled (m : Nat) : Nat :=
  let N := FLOAT_07_NUM * m
  let k := bitLen N
  if k ≤ 53 then N
  else
    let s := k - 53
    let q := N / 2 ^ s
    let r := N % 2 ^ s
    let half := 2 ^ (s - 1)
    let q2 := if half < r ∨ (r = half ∧ q % 2 = 1) then q + 1 else q
    q2 * 2 ^ s

/-- `CodeEditorUtils.formatForDisplay`. The JS float comparison
`lastNewline > maxLength * 0.7` is embedded exactly: `lastNewline` is an
integer (hence an exact double) and `mul07Scaled maxLength` is the
rounded double product scaled by `2^53`, so both sides are compared at
scale `2^53`. -/
def formatForDisplay (code : String) (maxLength : Nat := PREVIEW_LENGTH) : String :=
  if code.length ≤ maxLength then code
  else
    let truncated := String.mk (code.data.take maxLength)
    let lastNewline := lastIndexOf truncated '\n'
    if lastNewline * 2 ^ 53 > (mul07Scaled maxLength : Int) then
      String.mk (truncated.data.take lastNewline.toNat) ++ "\n..."
    else
      truncated ++ "..."

/-- `CodeEditorUtils.countLines`:
`if (!code) return 0; return code.split('\n').length;` -/
def countLines (code : String) : Nat :=
  if code = "" then 0 else (jsSplit '\n' code).length

/-- `CodeEditorUtils.countCharacters`. -/
def countCharacters (code : String) : Nat := code.length

/-- `CodeEditorUtils.isValidLength`:
`code.length <= CODE_EDITOR_CONSTANTS.MAX_CODE_LENGTH`. -/
def isValidLength (code : String) : Bool :=
  code.length ≤ MAX_CODE_LENGTH

/-- `CodeEditorUtils.getLanguageIcon`:
`LANGUAGE_INFO[language]?.icon || 'FileCode'`. -/
def getLanguageIcon (language : String) : String :=
  jsOrOpt ((lookupStr language LANGUAGE_INFO).map LangInfo.icon) "FileCode"

/-- `CodeEditorUtils.getLanguageName`:
`LANGUAGE_INFO[language]?.name || language`. -/
def getLanguageName (language : String) : String :=
  jsOrOpt ((lookupStr language LANGUAGE_INFO).map LangInfo.name) language

/-- `CodeEditorUtils.getFileExtension`:
`LANGUAGE_INFO[language]?.extension || '.txt'`. -/
def getFileExtension (language : String) : String :=
  jsOrOpt ((lookupStr language LANGUAGE_INFO).map LangInfo.extension) ".txt"

/-- `CodeEditorUtils.getCodePreview`. -/
def getCodePreview (code : String) (lineCount : Nat := 3) : String :=
  let codeLines := jsSplit '\n' code
  let preview := joinNL (codeLines.take lineCount)
  if codeLines.length > lineCount then preview ++ "\n..."
  else preview

/-- JS `(p / q).toFixed(1)` for a non-negative integer `p` and a positive
power-of-two `q`: the float quotient is the exact dyadic rational `p / q`
(no rounding for `p < 2^53`), and `toFixed(1)` picks the integer `n`
minimising `|n / 10 - p / q|`, the larger `n` on ties; that `n` is
`⌊(20 p + q) / (2 q)⌋`, rendered with one digit after the point. -/
def jsToFixed1 (p q : Nat) : String :=
  let n := (20 * p + q) / (2 * q)
  toString (n / 10) ++ "." ++ toString (n % 10)

/-- `CodeEditorUtils.formatFileSize`. -/
def formatFileSize (bytes : Nat) : String :=
  if bytes < 1024 then toString bytes ++ " B"
  else if bytes < 1024 * 1024 then jsToFixed1 bytes 1024 ++ " KB"
  else jsToFixed1 bytes (1024 * 1024) ++ " MB"

/-- The fields of `Partial<CodeSnippet>` read by `validateSnippet`
(`title` and `code`; every other field is ignored by it).
`none` models an absent (`undefined`) property. -/
structure PartialSnippet where
  title : Option String
  code : Option String

/-- Result record of `validateSnippet`. -/
structure ValidationResult where
  valid : Bool
  errors : List String
deriving DecidableEq

/-- JS falsiness of `x?.trim()` for an optional string property `x`:
true when the property is absent (`undefined`) or trims to `""`. -/
def isBlankOpt : Option String → Bool
  | none => true
  | some s => jsTrim s = ""

/-- JS truthiness test `snippet.code && !this.isValidLength(snippet.code)`:
the code property is present, non-empty (truthy), and fails the length
check. -/
def codeLengthBad : Option String → Bool
  | none => false
  | some c => c ≠ "" && !(isValidLength c)

/-- `CodeEditorUtils.validateSnippet`: three sequential `errors.push`
sites, then `valid: errors.length === 0`. -/
def validateSnippet (snippet : PartialSnippet) : ValidationResult :=
  let errors : List String := []
  let errors := if isBlankOpt snippet.title then errors ++ ["Title is required"] else errors
  let errors := if isBlankOpt snippet.code then errors ++ ["Code is required"] else errors
  let errors := if codeLengthBad snippet.code then
      errors ++ ["Code exceeds maximum length of " ++ formatFileSize MAX_CODE_LENGTH]
    else errors
  ⟨errors.length == 0, errors⟩

/-! ## Helper lemmas -/

theorem strlen_mk (l : List Char) : (String.mk l).length = l.length := rfl

theorem mk_append (a b : List Char) : String.mk a ++ String.mk b = String.mk (a ++ b) := rfl

theorem trim_all_ws (l : List Char) (h : ∀ c ∈ l, isJsWhitespace c = true) :
    jsTrim (String.mk l) = "" := by
  unfold jsTrim
  have h1 : l.dropWhile isJsWhitespace = [] :=
    List.dropWhile_eq_nil_iff.mpr (fun x hx => by simpa using h x hx)
  rw [h1]
  rfl

theorem trim_no_ws (l : List Char) (h : ∀ c ∈ l, isJsWhitespace c = false) :
    jsTrim (String.mk l) = String.mk l := by
  unfold jsTrim
  have h1 : l.dropWhile isJsWhitespace = l := by
    cases l with
    | nil => rfl
    | cons x xs =>
      rw [List.dropWhile_cons_of_neg]
      simp [h x (by simp)]
  rw [h1]
  have h2 : l.reverse.dropWhile isJsWhitespace = l.reverse := by
    cases hr : l.reverse with
    | nil => rfl
    | cons x xs =>
      rw [List.dropWhile_cons_of_neg]
      have hx : x ∈ l := by
        rw [← List.mem_reverse, hr]; simp
      simp [h x hx]
  rw [h2, List.reverse_reverse]

theorem toNat_ofNat_valid (n : Nat) (h : n < 55296) : (Char.ofNat n).toNat = n := by
  unfold Char.ofNat
  rw [dif_pos (Or.inl h)]
  simp [Char.ofNatAux, Char.toNat, UInt32.ofNat', UInt32.toNat]

theorem toNat_le_of_le {a b : Char} (h : a ≤ b) : a.toNat ≤ b.toNat := by
  simp only [Char.le_def] at h
  exact h

theorem charToLower_ne_dot {c : Char} (h : c ≠ '.') : charToLower c ≠ '.' := by
  unfold charToLower
  split
  case isTrue hc =>
    intro habs
    have h1 : 65 ≤ c.toNat := toNat_le_of_le hc.1
    have h2 : c.toNat ≤ 90 := toNat_le_of_le hc.2
    have h3 : (Char.ofNat (c.toNat + 32)).toNat = c.toNat + 32 :=
      toNat_ofNat_valid _ (by omega)
    rw [habs] at h3
    have h4 : ('.').toNat = 46 := by decide
    omega
  case isFalse => exact h

theorem splitAux_no_sep (c : Char) (l acc : List Char) (h : ∀ x ∈ l, x ≠ c) :
    splitAux c l acc = [String.mk (acc.reverse ++ l)] := by
  induction l generalizing acc with
  | nil => simp [splitAux]
  | cons x xs ih =>
    rw [splitAux, if_neg (h x (by simp))]
    rw [ih _ (fun y hy => h y (by simp [hy]))]
    simp

theorem splitAux_ne_nil (c : Char) (l acc : List Char) : splitAux c l acc ≠ [] := by
  induction l generalizing acc with
  | nil => simp [splitAux]
  | cons x xs ih =>
    rw [splitAux]
    split
    · simp
    · exact ih _

theorem splitAux_length (c : Char) (l acc : List Char) :
    (splitAux c l acc).length = l.count c + 1 := by
  induction l generalizing acc with
  | nil => simp [splitAux]
  | cons x xs ih =>
    rw [splitAux]
    split
    case isTrue hx =>
      subst hx
      simp [ih, List.count_cons]
    case isFalse hx =>
      rw [ih, List.count_cons]
      simp [hx]

theorem jsSplit_count (c : Char) (s : String) :
    (jsSplit c s).length = s.data.count c + 1 := by
  rw [jsSplit, splitAux_length]

theorem joinNL_splitAux (l acc : List Char) :
    joinNL (splitAux '\n' l acc) = String.mk (acc.reverse ++ l) := by
  induction l generalizing acc with
  | nil => simp [splitAux, joinNL]
  | cons x xs ih =>
    rw [splitAux]
    split
    case isTrue hx =>
      subst hx
      obtain ⟨y, ys, hy⟩ := List.exists_cons_of_ne_nil (splitAux_ne_nil '\n' xs [])
      rw [hy, joinNL, ← hy, ih]
      show String.mk _ ++ String.mk ['\n'] ++ String.mk _ = _
      rw [mk_append, mk_append]
      simp
    case isFalse hx =>
      rw [ih]
      simp

theorem joinNL_jsSplit (s : String) : joinNL (jsSplit '\n' s) = s := by
  rw [jsSplit, joinNL_splitAux]
  rfl

theorem lastIndexOfAux_lt (c : Char) (l : List Char) :
    lastIndexOfAux c l < (l.length : Int) := by
  induction l with
  | nil => simp [lastIndexOfAux]
  | cons x xs ih =>
    rw [lastIndexOfAux]
    simp only [List.length_cons]
    split
    · push_cast
      omega
    · split <;> (push_cast; omega)

theorem lookupStr_eq_none {α : Type} (k : String) (l : List (String × α))
    (h : k ∉ l.map Prod.fst) : lookupStr k l = none := by
  induction l with
  | nil => rfl
  | cons p rest ih =>
    rw [lookupStr]
    rw [if_neg (by simp at h; exact h.1)]
    exact ih (by simp at h; simp [h.2])

/-- Shared evaluation of `validateSnippet` on a snippet whose title is
non-blank but whose code trims to blank while exceeding the length bound. -/
theorem validateSnippet_blank_long_code (title code : String)
    (h1 : jsTrim title ≠ "") (h2 : jsTrim code = "") (h3 : 50000 < code.length) :
    validateSnippet ⟨some title, some code⟩ =
      ⟨false, ["Code is required", "Code exceeds maximum length of 48.8 KB"]⟩ := by
  have hb1 : isBlankOpt (some title) = false := by simp [isBlankOpt, h1]
  have hb2 : isBlankOpt (some code) = true := by simp [isBlankOpt, h2]
  have hne : code ≠ "" := by
    intro h
    rw [h] at h3
    exact absurd h3 (by decide)
  have hlen : codeLengthBad (some code) = true := by
    simp [codeLengthBad, hne, isValidLength, MAX_CODE_LENGTH]
    omega
  rw [validateSnippet]
  rw [hb1, hb2, hlen]
  rfl

/-! ## Claim theorems -/

/-- C1 counterexample: the filename `"Dockerfile"` contains no `'.'`, yet
`detectLanguage` returns `"dockerfile"`, not `"plaintext"`: `split('.')`
on a dot-free string yields the whole string as its single segment, so
`pop()` returns the whole lower-cased filename, not the empty string. -/
theorem C1_counterexample :
    '.' ∉ "Dockerfile".data ∧
    detectLanguage "Dockerfile" = "dockerfile" ∧
    ("dockerfile" : String) ≠ "plaintext" := by
  refine ⟨by decide, by decide, by decide⟩

/-- C1 (amended): for a filename with no `'.'`, the trailing token of the
split is the whole lower-cased filename, so `detectLanguage` returns that
token's map entry when present and `"plaintext"` otherwise; in particular
`detectLanguage "no_extension"` and `detectLanguage ""` are `"plaintext"`. -/
theorem C1_detect_no_dot :
    (∀ s : String, '.' ∉ s.data →
      detectLanguage s = jsOrOpt (lookupStr (jsToLower s) languageMap) "plaintext") ∧
    detectLanguage "no_extension" = "plaintext" ∧
    detectLanguage "" = "plaintext" := by
  refine ⟨?_, by decide, by decide⟩
  intro s hs
  rw [detectLanguage]
  have hnod : ∀ x ∈ (jsToLower s).data, x ≠ '.' := by
    intro x hx
    rw [jsToLower] at hx
    simp only [List.mem_map] at hx
    obtain ⟨y, hy, rfl⟩ := hx
    exact charToLower_ne_dot (fun h => hs (h ▸ hy))
  rw [jsSplit, splitAux_no_sep '.' _ _ hnod]
  simp [lastOrEmpty]

/-- C1 witness: the amended statement applied at the dot-free filename
`"Dockerfile"`. -/
theorem C1_witness :
    detectLanguage "Dockerfile" =
      jsOrOpt (lookupStr (jsToLower "Dockerfile") languageMap) "plaintext" :=
  C1_detect_no_dot.1 "Dockerfile" (by decide)

/-- C2: `validateSnippet` accumulates the three checks' errors in the
fixed order title-presence, code-presence, code-length; the `valid` flag
is true exactly when the error list is empty; `validateSnippet {}` yields
`["Title is required", "Code is required"]` and
`validateSnippet {title: "x", code: "y"}` is valid with no errors. -/
theorem C2_validateSnippet_accumulates :
    (∀ s : PartialSnippet,
      (validateSnippet s).errors =
        (if isBlankOpt s.title then ["Title is required"] else []) ++
        (if isBlankOpt s.code then ["Code is required"] else []) ++
        (if codeLengthBad s.code then
          ["Code exceeds maximum length of " ++ formatFileSize MAX_CODE_LENGTH]
        else []) ∧
      ((validateSnippet s).valid = true ↔ (validateSnippet s).errors = [])) ∧
    validateSnippet ⟨none, none⟩ = ⟨false, ["Title is required", "Code is required"]⟩ ∧
    validateSnippet ⟨some "x", some "y"⟩ = ⟨true, []⟩ := by
  refine ⟨?_, by decide, by decide⟩
  intro s
  constructor
  · rw [validateSnippet]
    by_cases h1 : isBlankOpt s.title <;>
      by_cases h2 : isBlankOpt s.code <;>
        by_cases h3 : codeLengthBad s.code <;>
          simp [h1, h2, h3]
  · rw [validateSnippet]
    by_cases h1 : isBlankOpt s.title <;>
      by_cases h2 : isBlankOpt s.code <;>
        by_cases h3 : codeLengthBad s.code <;>
          simp [h1, h2, h3]

/-- C6: `countLines` maps the empty string to 0 and any non-empty string
to its number of newline characters plus one (naive split semantics, so a
trailing newline adds a line). -/
theorem C6_countLines :
    countLines "" = 0 ∧
    (∀ s : String, s ≠ "" → countLines s = s.data.count '\n' + 1) ∧
    countLines "a" = 1 ∧ countLines "a\nb" = 2 ∧ countLines "a\n" = 2 := by
  refine ⟨by decide, ?_, by decide, by decide, by decide⟩
  intro s hs
  rw [countLines, if_neg hs, jsSplit_count]

/-- C6 witness: the general count applied at `"a\n"`. -/
theorem C6_witness : countLines "a\n" = "a\n".data.count '\n' + 1 :=
  C6_countLines.2.1 "a\n" (by decide)

/-- C7: `getCodePreview` joins the first `lineCount` newline-delimited
segments and appends the `"\n..."` marker exactly when the code has
strictly more segments; with enough requested lines the code is returned
unchanged (join is inverse to split). -/
theorem C7_getCodePreview :
    (∀ (code : String) (n : Nat), n < (jsSplit '\n' code).length →
      getCodePreview code n = joinNL ((jsSplit '\n' code).take n) ++ "\n...") ∧
    (∀ (code : String) (n : Nat), (jsSplit '\n' code).length ≤ n →
      getCodePreview code n = code) ∧
    getCodePreview "a\nb\nc\nd" 2 = "a\nb\n..." ∧
    getCodePreview "a\nb" 5 = "a\nb" := by
  refine ⟨?_, ?_, by decide, by decide⟩
  · intro code n h
    rw [getCodePreview]
    simp only [if_pos h]
  · intro code n h
    rw [getCodePreview]
    simp only [if_neg (not_lt.mpr h)]
    rw [List.take_of_length_le h, joinNL_jsSplit]

/-- C7 witness: both branches applied at concrete inputs. -/
theorem C7_witness :
    getCodePreview "x\ny" 1 = joinNL ((jsSplit '\n' "x\ny").take 1) ++ "\n..." ∧
    getCodePreview "ab" 3 = "ab" :=
  ⟨C7_getCodePreview.1 "x\ny" 1 (by decide), C7_getCodePreview.2.1 "ab" 3 (by decide)⟩

/-- C3 counterexample: a 50,001-character code string consisting only of
spaces trims to blank, so `validateSnippet` reports two errors (code
presence and code length), not exactly one. -/
theorem C3_counterexample :
    (String.mk (List.replicate 50001 ' ')).length = 50001 ∧
    (validateSnippet ⟨some "x", some (String.mk (List.replicate 50001 ' '))⟩).errors =
      ["Code is required", "Code exceeds maximum length of 48.8 KB"] ∧
    (validateSnippet ⟨some "x", some (String.mk (List.replicate 50001 ' '))⟩).errors.length ≠ 1 := by
  have hlen : (String.mk (List.replicate 50001 ' ')).length = 50001 := by
    rw [strlen_mk, List.length_replicate]
  have htrim : jsTrim (String.mk (List.replicate 50001 ' ')) = "" :=
    trim_all_ws _ (fun c hc => by rw [List.eq_of_mem_replicate hc]; rfl)
  have h := validateSnippet_blank_long_code "x" (String.mk (List.replicate 50001 ' '))
    (by decide) htrim (by omega)
  refine ⟨hlen, by rw [h], by rw [h]; decide⟩

/-- C3 (amended): for every 50,001-character code string that is
non-blank after trimming, `validateSnippet {title: "x", code}` returns
`valid: false` with exactly the single error interpolating
`formatFileSize(50000)`, i.e. `"Code exceeds maximum length of 48.8 KB"`. -/
theorem C3_overlong_code (code : String) (hlen : code.length = 50001)
    (htrim : jsTrim code ≠ "") :
    validateSnippet ⟨some "x", some code⟩ =
      ⟨false, ["Code exceeds maximum length of 48.8 KB"]⟩ := by
  have hb1 : isBlankOpt (some "x") = false := by decide
  have hb2 : isBlankOpt (some code) = false := by simp [isBlankOpt, htrim]
  have hne : code ≠ "" := by
    intro h
    rw [h] at hlen
    exact absurd hlen (by decide)
  have hbad : codeLengthBad (some code) = true := by
    simp [codeLengthBad, hne, isValidLength, MAX_CODE_LENGTH]
    omega
  rw [validateSnippet, hb1, hb2, hbad]
  rfl

/-- C3 witness: the amended statement applied to 50,001 letters `a`. -/
theorem C3_witness :
    validateSnippet ⟨some "x", some (String.mk (List.replicate 50001 'a'))⟩ =
      ⟨false, ["Code exceeds maximum length of 48.8 KB"]⟩ := by
  have hlen : (String.mk (List.replicate 50001 'a')).length = 50001 := by
    rw [strlen_mk, List.length_replicate]
  have htr : jsTrim (String.mk (List.replicate 50001 'a')) =
      String.mk (List.replicate 50001 'a') :=
    trim_no_ws _ (fun c hc => by rw [List.eq_of_mem_replicate hc]; rfl)
  refine C3_overlong_code _ hlen ?_
  rw [htr]
  intro habs
  rw [habs] at hlen
  exact absurd hlen (by decide)

/-- C4: a snippet with non-blank title and all-whitespace code longer
than 50,000 characters fails with exactly the two errors
`"Code is required"` then the length error: the length check tests the
untrimmed code for non-emptiness, independent of the blank-after-trim
presence check. -/
theorem C4_whitespace_long_code (title code : String) (h1 : jsTrim title ≠ "")
    (h2 : ∀ c ∈ code.data, isJsWhitespace c = true) (h3 : 50000 < code.length) :
    validateSnippet ⟨some title, some code⟩ =
      ⟨false, ["Code is required", "Code exceeds maximum length of 48.8 KB"]⟩ :=
  validateSnippet_blank_long_code title code h1 (trim_all_ws code.data h2) h3

/-- C4 witness: title `"x"` with 50,001 spaces as code. -/
theorem C4_witness :
    validateSnippet ⟨some "x", some (String.mk (List.replicate 50001 ' '))⟩ =
      ⟨false, ["Code is required", "Code exceeds maximum length of 48.8 KB"]⟩ :=
  C4_whitespace_long_code "x" (String.mk (List.replicate 50001 ' ')) (by decide)
    (fun c hc => by rw [List.eq_of_mem_replicate hc]; rfl)
    (by rw [strlen_mk, List.length_replicate]; omega)

set_option maxRecDepth 8000 in
/-- C5 counterexample: with `maxLength = 90` and a 100-character code
whose 90-character slice has its last newline at offset 63, the claim's
exact-arithmetic threshold `p > 0.7 * maxLength` fails (`63 > 63` is
false), so the claim predicts the hard break `t ++ "..."`; but the
program compares against the IEEE-754 double `90 * 0.7 =
62.99999999999999`, takes the clean-break branch, and returns the
63-character prefix followed by `"\n..."`. -/
theorem C5_counterexample :
    (String.mk (List.replicate 63 'a' ++ '\n' :: List.replicate 36 'b')).length = 100 ∧
    lastIndexOf (String.mk ((String.mk (List.replicate 63 'a' ++ '\n' ::
      List.replicate 36 'b')).data.take 90)) '\n' = 63 ∧
    ¬ (7 * (90 : Int) < 10 * 63) ∧
    formatForDisplay (String.mk (List.replicate 63 'a' ++ '\n' ::
      List.replicate 36 'b')) 90 = String.mk (List.replicate 63 'a') ++ "\n..." ∧
    formatForDisplay (String.mk (List.replicate 63 'a' ++ '\n' ::
      List.replicate 36 'b')) 90 ≠
      String.mk ((String.mk (List.replicate 63 'a' ++ '\n' ::
        List.replicate 36 'b')).data.take 90) ++ "..." := by
  refine ⟨by decide, by decide, by decide, by decide, by decide⟩

/-- C5 (amended): `formatForDisplay` returns short code unchanged; for
long code it truncates to the first `maxLength` characters, and when the
offset `p` of the last newline of that slice exceeds the IEEE-754 double
product `maxLength * 0.7` (compared here at scale `2^53`; the rounded
product can fall just below the exact `0.7 * maxLength`) it cuts the
original code at that newline and appends `"\n..."`, otherwise appends
`"..."` to the hard `maxLength`-character cut. -/
theorem C5_formatForDisplay (code : String) (m : Nat) (hm : 0 < m) :
    (code.length ≤ m → formatForDisplay code m = code) ∧
    (m < code.length →
      (mul07Scaled m : Int) < lastIndexOf (String.mk (code.data.take m)) '\n' * 2 ^ 53 →
      formatForDisplay code m =
        String.mk (code.data.take
          (lastIndexOf (String.mk (code.data.take m)) '\n').toNat) ++ "\n...") ∧
    (m < code.length →
      lastIndexOf (String.mk (code.data.take m)) '\n' * 2 ^ 53 ≤ (mul07Scaled m : Int) →
      formatForDisplay code m = String.mk (code.data.take m) ++ "...") := by
  refine ⟨?_, ?_, ?_⟩
  · intro h
    rw [formatForDisplay, if_pos h]
  · intro h hgt
    rw [formatForDisplay, if_neg (not_le.mpr h)]
    show (if (mul07Scaled m : Int) <
        lastIndexOf (String.mk (code.data.take m)) '\n' * 2 ^ 53 then
        String.mk ((String.mk (code.data.take m)).data.take
          (lastIndexOf (String.mk (code.data.take m)) '\n').toNat) ++ "\n..."
      else String.mk (code.data.take m) ++ "...") = _
    rw [if_pos hgt]
    have hp : lastIndexOfAux '\n' (code.data.take m) < ((code.data.take m).length : Int) :=
      lastIndexOfAux_lt '\n' (code.data.take m)
    rw [List.length_take] at hp
    have hidx : lastIndexOf (String.mk (code.data.take m)) '\n' =
        lastIndexOfAux '\n' (code.data.take m) := rfl
    have hk : (lastIndexOf (String.mk (code.data.take m)) '\n').toNat ≤ m := by
      rw [hidx]
      omega
    show String.mk ((code.data.take m).take _) ++ "\n..." = _
    rw [List.take_take, Nat.min_eq_left hk]
  · intro h hle
    rw [formatForDisplay, if_neg (not_le.mpr h)]
    show (if (mul07Scaled m : Int) <
        lastIndexOf (String.mk (code.data.take m)) '\n' * 2 ^ 53 then
        String.mk ((String.mk (code.data.take m)).data.take
          (lastIndexOf (String.mk (code.data.take m)) '\n').toNat) ++ "\n..."
      else String.mk (code.data.take m) ++ "...") = _
    rw [if_neg (not_lt.mpr hle)]

/-- C5 witness: the clean-break branch at `"abc\ndef"` with limit 4
(newline offset 3 exceeds the double `4 * 0.7 ≈ 2.8`) and the hard-break
branch at `"abcdef"` with limit 3 (no newline, offset −1). -/
theorem C5_witness :
    formatForDisplay "abc\ndef" 4 = "abc\n..." ∧
    formatForDisplay "abcdef" 3 = "abc..." := by
  constructor
  · have h := (C5_formatForDisplay "abc\ndef" 4 (by decide)).2.1 (by decide) (by decide)
    rw [h]
    decide
  · have h := (C5_formatForDisplay "abcdef" 3 (by decide)).2.2 (by decide) (by decide)
    rw [h]
    decide

/-- C8: `formatFileSize` renders byte counts below 1024 as `"<n> B"`,
counts below 1024² as the count divided by 1024 rounded to one decimal
place (ties upward) with `" KB"`, and all larger counts as the count
divided by 1024² rounded to one decimal place with `" MB"`; with the four
listed sample values. -/
theorem C8_formatFileSize :
    (∀ b : Nat, b < 1024 → formatFileSize b = toString b ++ " B") ∧
    (∀ b : Nat, 1024 ≤ b → b < 1048576 → ∃ n : Nat,
      formatFileSize b = toString (n / 10) ++ "." ++ toString (n % 10) ++ " KB" ∧
      |(n : ℚ) / 10 - (b : ℚ) / 1024| ≤ 1 / 20) ∧
    (∀ b : Nat, 1048576 ≤ b → ∃ n : Nat,
      formatFileSize b = toString (n / 10) ++ "." ++ toString (n % 10) ++ " MB" ∧
      |(n : ℚ) / 10 - (b : ℚ) / 1048576| ≤ 1 / 20) ∧
    formatFileSize 0 = "0 B" ∧ formatFileSize 1024 = "1.0 KB" ∧
    formatFileSize 1536 = "1.5 KB" ∧ formatFileSize 1048576 = "1.0 MB" := by
  refine ⟨?_, ?_, ?_, by decide, by decide, by decide, by decide⟩
  · intro b h
    rw [formatFileSize, if_pos h]
  · intro b h1 h2
    refine ⟨(20 * b + 1024) / (2 * 1024), ?_, ?_⟩
    · rw [formatFileSize, if_neg (not_lt.mpr h1), if_pos (by omega)]
      rfl
    · have c1 : 2 * 1024 * ((20 * b + 1024) / (2 * 1024)) ≤ 20 * b + 1024 :=
        Nat.mul_div_le (20 * b + 1024) (2 * 1024)
      have c2 : 20 * b + 1024 < 2 * 1024 * ((20 * b + 1024) / (2 * 1024)) + 2 * 1024 := by
        omega
      have c1q : (2048 : ℚ) * ((20 * b + 1024) / (2 * 1024) : Nat) ≤ 20 * (b : ℚ) + 1024 := by
        exact_mod_cast c1
      have c2q : 20 * (b : ℚ) + 1024 < 2048 * ((20 * b + 1024) / (2 * 1024) : Nat) + 2048 := by
        exact_mod_cast c2
      rw [abs_le]
      constructor <;> linarith
  · intro b h1
    refine ⟨(20 * b + 1048576) / (2 * 1048576), ?_, ?_⟩
    · rw [formatFileSize, if_neg (by omega), if_neg (by omega)]
      rfl
    · have c1 : 2 * 1048576 * ((20 * b + 1048576) / (2 * 1048576)) ≤ 20 * b + 1048576 :=
        Nat.mul_div_le (20 * b + 1048576) (2 * 1048576)
      have c2 : 20 * b + 1048576 <
          2 * 1048576 * ((20 * b + 1048576) / (2 * 1048576)) + 2 * 1048576 := by
        omega
      have c1q : (2097152 : ℚ) * ((20 * b + 1048576) / (2 * 1048576) : Nat) ≤
          20 * (b : ℚ) + 1048576 := by
        exact_mod_cast c1
      have c2q : 20 * (b : ℚ) + 1048576 <
          2097152 * ((20 * b + 1048576) / (2 * 1048576) : Nat) + 2097152 := by
        exact_mod_cast c2
      rw [abs_le]
      constructor <;> linarith

/-- C8 witness: the three branches applied at 500, 1536 and 2097152
bytes. -/
theorem C8_witness :
    formatFileSize 500 = toString 500 ++ " B" ∧
    (∃ n : Nat, formatFileSize 1536 = toString (n / 10) ++ "." ++ toString (n % 10) ++ " KB" ∧
      |(n : ℚ) / 10 - (1536 : ℚ) / 1024| ≤ 1 / 20) ∧
    (∃ n : Nat, formatFileSize 2097152 = toString (n / 10) ++ "." ++ toString (n % 10) ++ " MB" ∧
      |(n : ℚ) / 10 - (2097152 : ℚ) / 1048576| ≤ 1 / 20) :=
  ⟨C8_formatFileSize.1 500 (by decide),
   C8_formatFileSize.2.1 1536 (by decide) (by decide),
   C8_formatFileSize.2.2.1 2097152 (by decide)⟩

/-- C9: for every extension token in the map, detection of
`"file.<ext>"` and of `"FILE.<EXT>"` both yield the mapped language:
the whole input is lower-cased before lookup. -/
theorem C9_case_insensitive :
    ∀ p ∈ languageMap,
      detectLanguage ("file." ++ p.1) = p.2 ∧
      detectLanguage ("FILE." ++ jsToUpper p.1) = p.2 := by
  decide

/-- C9 witness: the map entry `("ts", "typescript")`. -/
theorem C9_witness :
    detectLanguage ("file." ++ "ts") = "typescript" ∧
    detectLanguage ("FILE." ++ jsToUpper "ts") = "typescript" :=
  C9_case_insensitive ("ts", "typescript") (by decide)

/-- C10: on every identity in the closed 25-label set the three metadata
accessors return non-empty strings; outside the set `getLanguageName`
echoes the raw value, `getLanguageIcon` falls back to `"FileCode"` and
`getFileExtension` to `".txt"` (all three are total Lean functions). -/
theorem C10_metadata_accessors :
    (∀ L ∈ LANGUAGES,
      getLanguageName L ≠ "" ∧ getLanguageIcon L ≠ "" ∧ getFileExtension L ≠ "") ∧
    (∀ s : String, s ∉ LANGUAGES →
      getLanguageName s = s ∧ getLanguageIcon s = "FileCode" ∧
      getFileExtension s = ".txt") := by
  constructor
  · decide
  · intro s hs
    have hkeys : LANGUAGE_INFO.map Prod.fst = LANGUAGES := by rfl
    have hn : lookupStr s LANGUAGE_INFO = none :=
      lookupStr_eq_none s _ (by rw [hkeys]; exact hs)
    refine ⟨?_, ?_, ?_⟩ <;>
      simp [getLanguageName, getLanguageIcon, getFileExtension, jsOrOpt, hn]

/-- C10 witness: the in-set identity `"typescript"` and the out-of-set
raw value `"klingon"`. -/
theorem C10_witness :
    (getLanguageName "typescript" ≠ "" ∧ getLanguageIcon "typescript" ≠ "" ∧
      getFileExtension "typescript" ≠ "") ∧
    (getLanguageName "klingon" = "klingon" ∧ getLanguageIcon "klingon" = "FileCode" ∧
      getFileExtension "klingon" = ".txt") :=
  ⟨C10_metadata_accessors.1 "typescript" (by decide),
   C10_metadata_accessors.2 "klingon" (by decide)⟩
